import Mathlib

/-!
Shallow embedding of the screening pipeline in `src/OpenHtml.py` and proofs
about the claims of its specification.

Modelling conventions:
* A pandas DataFrame produced by `pd.DataFrame(data)` (line 125) carries the
  default `RangeIndex`, so index labels coincide with positions; a DataFrame
  is modelled as a `List Bar` and an index label as the list position.
* `trade_date` values are modelled as abstract calendar days (`Nat`): the
  provider serialises real dates and `pd.to_datetime` parses them back, a
  bijection on the well-formed dates this data carries.  The source only
  ever compares `trade_date` cells for equality (line 96).
* Raw provider cells for `high` are either strings or floats; floats are
  modelled as `ℚ`.  Python comparison of two strings is code-point
  lexicographic; comparing a string with a number raises `TypeError`;
  `==` across types is `False`.  A pandas column is homogeneous (one dtype).
* Fallible Python code is embedded in `Except PyErr`; a predicate returns
  its verdict together with the DataFrame state after the call, since
  `filter_logic_three` assigns to `df['high']` (line 81).
-/

namespace OpenHtml

/-- Raw cell value for the `high` column as delivered by the provider:
either a string or a float (modelled as `ℚ`). -/
inductive RawVal where
  | str (s : String)
  | num (q : ℚ)
deriving DecidableEq

/-- Python exception classes observed by this code. -/
inductive PyErr where
  | typeError
  | valueError
  | indexError
  | providerError
deriving DecidableEq

/-- The message text `str(e)` of an exception, used in the error-log line. -/
def PyErr.message : PyErr → String
  | .typeError => "TypeError"
  | .valueError => "ValueError"
  | .indexError => "IndexError"
  | .providerError => "ProviderError"

instance {ε α : Type _} [DecidableEq ε] [DecidableEq α] : DecidableEq (Except ε α) :=
  fun x y =>
    match x, y with
    | .ok a, .ok b =>
      if h : a = b then isTrue (congrArg Except.ok h)
      else isFalse (fun hc => h (Except.ok.inj hc))
    | .error a, .error b =>
      if h : a = b then isTrue (congrArg Except.error h)
      else isFalse (fun hc => h (Except.error.inj hc))
    | .ok _, .error _ => isFalse (fun hc => Except.noConfusion hc)
    | .error _, .ok _ => isFalse (fun hc => Except.noConfusion hc)

/-- One daily price bar; the pipeline only reads `trade_date` and `high`. -/
structure Bar where
  trade_date : Nat
  high : RawVal
deriving DecidableEq

/-- A per-ticker price series: rows of a DataFrame with default RangeIndex,
ascending by position. -/
abbrev DataFrame := List Bar

/-- Code-point lexicographic order on character lists (Python `str < str`). -/
def charsLt : List Char → List Char → Bool
  | [], [] => false
  | [], _ :: _ => true
  | _ :: _, [] => false
  | a :: as, b :: bs =>
    if a.val < b.val then true
    else if b.val < a.val then false
    else charsLt as bs

/-- Python `<` on two strings. -/
def strLt (a b : String) : Bool := charsLt a.data b.data

/-- Python `<` on two `high` cells: numeric on floats, lexicographic on
strings, `TypeError` across types. -/
def RawVal.pyLt : RawVal → RawVal → Except PyErr Bool
  | .num a, .num b => .ok (decide (a < b))
  | .str a, .str b => .ok (strLt a b)
  | _, _ => .error .typeError

/-- Python `<=` on two `high` cells. -/
def RawVal.pyLe : RawVal → RawVal → Except PyErr Bool
  | .num a, .num b => .ok (decide (a ≤ b))
  | .str a, .str b => .ok (!strLt b a)
  | _, _ => .error .typeError

/-- Python `==` on two `high` cells; across types it is `False`, never an
error. -/
def RawVal.pyEq : RawVal → RawVal → Bool
  | .num a, .num b => decide (a = b)
  | .str a, .str b => a == b
  | _, _ => false

/-- Parse a non-negative decimal integer numeral, as `float(s)` accepts for
the numerals this data uses; any other string raises `ValueError`. -/
def parseNatDigits (s : String) : Option Nat :=
  if s.data ≠ [] ∧ s.data.all Char.isDigit then
    some (s.data.foldl (fun a c => a * 10 + (c.toNat - 48)) 0)
  else none

/-- Python `float(x)` applied to a raw cell (`astype(float)` per cell):
identity on floats, numeral parse on strings, `ValueError` on junk. -/
def RawVal.toFloat : RawVal → Except PyErr ℚ
  | .num q => .ok q
  | .str s =>
    match parseNatDigits s with
    | some n => .ok (n : ℚ)
    | none => .error .valueError

/-- The `high` column of a DataFrame. -/
def DataFrame.highs (df : DataFrame) : List RawVal := df.map Bar.high

/-- The `high` column as rationals when its dtype is float (every cell a
`num`); `none` when the column is object-typed (some cell a string). -/
def DataFrame.highsQ : DataFrame → Option (List ℚ)
  | [] => some []
  | b :: df =>
    match b.high with
    | .num q => (highsQ df).map (fun hs => q :: hs)
    | .str _ => none

/-- `df['high'].astype(float)`: coerce every cell, left to right, raising
the first cell's error if any. -/
def astypeFloat : DataFrame → Except PyErr (List ℚ)
  | [] => .ok []
  | b :: df =>
    match b.high.toFloat with
    | .error e => .error e
    | .ok q =>
      match astypeFloat df with
      | .error e => .error e
      | .ok qs => .ok (q :: qs)

/-- pandas `.tail(n)` / `.iloc[-n:]`: the last `min n length` elements. -/
def pyTail (l : List α) (n : Nat) : List α := l.drop (l.length - n)

/-- Clamp a (possibly negative) Python slice endpoint to a list position. -/
def pyIdxClamp (len : Nat) (i : Int) : Nat :=
  if i < 0 then ((len : Int) + i).toNat else min i.toNat len

/-- Python slice `l[a:b]` with possibly negative endpoints (step 1). -/
def pySlice (l : List α) (a b : Int) : List α :=
  (l.take (pyIdxClamp l.length b)).drop (pyIdxClamp l.length a)

/-- Running maximum over the rest of a window, reducing with Python `<`. -/
def pyMaxGo (m : RawVal) : List RawVal → Except PyErr RawVal
  | [] => .ok m
  | y :: ys =>
    match m.pyLt y with
    | .error e => .error e
    | .ok b => pyMaxGo (if b then y else m) ys

/-- pandas `Series.max()` over a `high` window, reducing with Python `<`;
call sites guard the window nonempty (an empty reduce would give NaN). -/
def pyMaxList : List RawVal → Except PyErr RawVal
  | [] => .error .valueError
  | x :: xs => pyMaxGo x xs

/-- Python `all(h[i] < h[i+1] for i in range(len(h)-1))`: lazy conjunction of
adjacent `<` comparisons, stopping at the first `False`. -/
def chainLt : List RawVal → Except PyErr Bool
  | a :: b :: rest =>
    match a.pyLt b with
    | .error e => .error e
    | .ok true => chainLt (b :: rest)
    | .ok false => .ok false
  | _ => .ok true

/-- Ranking key of pandas `Series.nlargest` with `keep='first'`: larger
values first, ties broken by earlier original position. -/
def keyLe (a b : Nat × ℚ) : Prop := b.2 < a.2 ∨ (a.2 = b.2 ∧ a.1 ≤ b.1)

instance : DecidableRel keyLe := fun a b =>
  inferInstanceAs (Decidable (b.2 < a.2 ∨ (a.2 = b.2 ∧ a.1 ≤ b.1)))

instance : IsTotal (Nat × ℚ) keyLe where
  total a b := by
    rcases lt_trichotomy a.2 b.2 with h | h | h
    · exact Or.inr (Or.inl h)
    · rcases Nat.le_total a.1 b.1 with h1 | h1
      · exact Or.inl (Or.inr ⟨h, h1⟩)
      · exact Or.inr (Or.inr ⟨h.symm, h1⟩)
    · exact Or.inl (Or.inl h)

instance : IsTrans (Nat × ℚ) keyLe where
  trans a b c hab hbc := by
    rcases hab with hab | ⟨hab, hab1⟩ <;> rcases hbc with hbc | ⟨hbc, hbc1⟩
    · exact Or.inl (hbc.trans hab)
    · exact Or.inl (hbc ▸ hab)
    · exact Or.inl (by rw [hab]; exact hbc)
    · exact Or.inr ⟨hab.trans hbc, hab1.trans hbc1⟩

/-- Stable descending sort of `(position, value)` pairs: the order in which
`nlargest` ranks the rows of a float Series. -/
def rankSort (l : List (Nat × ℚ)) : List (Nat × ℚ) := List.insertionSort keyLe l

/-- pandas `series.nlargest n` on a float Series, keeping positions:
the first `n` pairs of the stable descending order. -/
def nlargestIdx (hs : List ℚ) (n : Nat) : List (Nat × ℚ) :=
  (rankSort hs.enum).take n

/-- The `(position, value)` pair of the n-th highest value (1-based). -/
def nthHighPair (hs : List ℚ) (n : Nat) : Nat × ℚ :=
  (rankSort hs.enum).getD (n - 1) (0, 0)

/-- Lines 11-33: date, value and index of the n-th highest `high`.
Returns `none` (the Python `(None, None, None)`) when the frame is shorter
than `n`, and likewise when `nlargest` raises on a non-float column or
`index[n-1]` raises for `n = 0` (both are caught by the `except` branch). -/
def get_nth_high_info (df : DataFrame) (n : Nat) : Option (Nat × ℚ × Nat) :=
  if df.length < n then none
  else
    match df.highsQ with
    | none => none
    | some hs =>
      match (nlargestIdx hs n)[n - 1]? with
      | none => none
      | some p => some ((df.map Bar.trade_date).getD p.1 0, p.2, p.1)

/-- Lines 59-63: the last 10 highs are pairwise strictly increasing; `False`
for fewer than 10 rows.  Contains no assignment, so the state is returned
unchanged. -/
def is_price_increasing (df : DataFrame) : Except PyErr Bool × DataFrame :=
  if df.length < 10 then (.ok false, df)
  else (chainLt (pyTail df.highs 10), df)

/-- Lines 66-71: max of `high[-30:-7]` is at most max of `high[-7:]`;
`False` for fewer than 30 rows.  No assignment, state unchanged. -/
def is_30_to_7_high_max (df : DataFrame) : Except PyErr Bool × DataFrame :=
  if df.length < 30 then (.ok false, df)
  else
    (match pyMaxList (pySlice df.highs (-30) (-7)), pyMaxList (pyTail df.highs 7) with
     | .ok m1, .ok m2 => m1.pyLe m2
     | .error e, _ => .error e
     | _, .error e => .error e,
     df)

/-- Lines 102-116: max of the last 7 highs equals max of the last 30 highs;
`False` for fewer than 30 rows.  No assignment, state unchanged. -/
def is_seven_equals_thirty_high (df : DataFrame) : Except PyErr Bool × DataFrame :=
  if df.length < 30 then (.ok false, df)
  else
    (match pyMaxList (pyTail df.highs 7), pyMaxList (pyTail df.highs 30) with
     | .ok m7, .ok m30 => .ok (m7.pyEq m30)
     | .error e, _ => .error e
     | _, .error e => .error e,
     df)

/-- One row after `df['high'] = df['high'].astype(float)` replaced its
`high` cell by the coerced float. -/
def coerceHigh (b : Bar) (q : ℚ) : Bar := { b with high := RawVal.num q }

/-- Lines 82-99, the body of `filter_logic_three` after the `astype`
assignment; `df'` is the mutated frame and `qs` its float `high` column.
The auxiliary window `high_last_30_to_7` (line 83) and the comparison
`is_3023_high_7_high` (line 97) are computed by the source but never used
in the returned expression and cannot raise (slicing never raises and
`Series.max` on an empty float window yields NaN, not an error), so they
are not reproduced here. -/
def filterThreeBody (df' : DataFrame) (qs : List ℚ) : Except PyErr Bool × DataFrame :=
  let last_seven_highs := pyTail qs 7
  let top_two_highs := nlargestIdx last_seven_highs 2
  if top_two_highs.length < 2 then (.ok false, df')
  else
    match get_nth_high_info df' 1, get_nth_high_info df' 2, get_nth_high_info df' 3 with
    | some (_, _, i1), some (_, _, i2), some (_, _, i3) =>
      let first_second := ((i1 : ℤ) - (i2 : ℤ)).natAbs ≠ 1
      let first_third := ((i1 : ℤ) - (i3 : ℤ)).natAbs ≠ 1
      let dateEq := (df'.map Bar.trade_date).getD i1 0 = (df'.map Bar.trade_date).getLastD 0
      (.ok (decide (dateEq ∧ (first_second ∨ first_third))), df')
    | _, _, _ =>
      -- a `None` index reaches `abs(first_high_index - ...)`: `TypeError`
      (.error .typeError, df')

/-- Lines 74-99: `filter_logic_three`.  An empty frame returns `False`
before the `astype` assignment; otherwise the `high` column is coerced to
float in place (the new state), and the peak-position test runs on the
coerced frame.  If `astype` raises, the assignment never happens and the
input state is unchanged. -/
def filter_logic_three (df : DataFrame) : Except PyErr Bool × DataFrame :=
  if df.isEmpty then (.ok false, df)
  else
    match astypeFloat df with
    | .error e => (.error e, df)
    | .ok qs => filterThreeBody (df.zipWith coerceHigh qs) qs

/-- Universe metadata for one ticker as looked up from `stocks_info`. -/
structure StockMeta where
  short_name : String
  exchange : String
  list_date : String
deriving DecidableEq

/-- The dictionary `process_stock` returns for a passing ticker. -/
structure StockInfo where
  stock_code : String
  short_name : String
  exchange : String
  list_date : String
deriving DecidableEq

/-- Lines 130-132: apply the filter list in order to the shared frame,
stopping at the first `False`; a raised exception propagates.  Each filter
receives the state left behind by the previous one. -/
def applyFilters : List (DataFrame → Except PyErr Bool × DataFrame) → DataFrame →
    Except PyErr Bool × DataFrame
  | [], df => (.ok true, df)
  | f :: fs, df =>
    match f df with
    | (.ok true, df') => applyFilters fs df'
    | (.ok false, df') => (.ok false, df')
    | (.error e, df') => (.error e, df')

/-- Line 413: the filter chain the script actually wires in. -/
def filters_to_apply : List (DataFrame → Except PyErr Bool × DataFrame) :=
  [filter_logic_three]

/-- Modelled from the spec: the predicate chain the specification asserts —
ContinuousRise(10), RecentHighDominance(30, 7), PeakPositionPattern — in
the spec's fixed order. -/
def specChain : List (DataFrame → Except PyErr Bool × DataFrame) :=
  [is_price_increasing, is_30_to_7_high_max, filter_logic_three]

/-- Lines 119-143: `process_stock` on an already-fetched frame.  `fetched`
is the outcome of the `adata.stock.market.get_market` call (an exception
from it propagates through the re-raising `except`); `lookup` is the
`stocks_info` metadata table; a missing code makes `.values[0]` raise
`IndexError`, which the `except` branch re-raises. -/
def process_stock (fetched : Except PyErr DataFrame) (lookup : String → Option StockMeta)
    (stock_code : String)
    (filters : List (DataFrame → Except PyErr Bool × DataFrame)) :
    Except PyErr (Option StockInfo) :=
  match fetched with
  | .error e => .error e
  | .ok df =>
    if df.isEmpty then .ok none
    else
      match applyFilters filters df with
      | (.ok true, _) =>
        match lookup stock_code with
        | some m => .ok (some ⟨stock_code, m.short_name, m.exchange, m.list_date⟩)
        | none => .error .indexError
      | (.ok false, _) => .ok none
      | (.error e, _) => .error e

/-- One line appended to `error_log.txt` (line 53): function name, the
exception's message and the call arguments (which contain the ticker
code). -/
structure LogEntry where
  func_name : String
  message : String
  args : String
deriving DecidableEq

/-- Observable outcome of one call through the `retry` wrapper: the wrapped
function's return value (`none` when retries were exhausted), how many times
the function was invoked, the `time.sleep` durations performed between
attempts, and the error-log lines written. -/
structure RetryResult (α : Type) where
  result : Option α
  calls : Nat
  sleeps : List Nat
  log : List LogEntry
deriving DecidableEq

/-- Lines 39-54, the wrapper's loop: `n` attempts already made, `tries`
and `delay` the current loop variables.  `while local_tries > 1` runs the
guarded attempts (sleeping `delay` and multiplying it by `backoff` after a
failure); the final attempt logs one line and returns `None` on failure.
`op k` is the outcome of invocation number `k` of the wrapped function. -/
def retryGo (op : Nat → Except PyErr α) (func_name argsRepr : String) (backoff : Nat) :
    Nat → Nat → Nat → List Nat → RetryResult α
  | n, tries + 2, delay, sleeps =>
    match op n with
    | .ok a => ⟨some a, n + 1, sleeps, []⟩
    | .error _ =>
      retryGo op func_name argsRepr backoff (n + 1) (tries + 1) (delay * backoff)
        (sleeps ++ [delay])
  | n, _, _, sleeps =>
    match op n with
    | .ok a => ⟨some a, n + 1, sleeps, []⟩
    | .error e => ⟨none, n + 1, sleeps, [⟨func_name, e.message, argsRepr⟩]⟩

/-- Lines 36-56: the `retry` decorator applied to a function whose
successive invocations produce `op 0, op 1, ...`. -/
def retry (op : Nat → Except PyErr α) (tries delay backoff : Nat)
    (func_name argsRepr : String) : RetryResult α :=
  retryGo op func_name argsRepr backoff 0 tries delay []

/-- Line 118: `process_stock` is decorated with
`@retry(Exception, tries=3, delay=2, backoff=2)`; the logged arguments
contain the ticker code. -/
def process_stock_with_retry (attempts : Nat → Except PyErr (Option StockInfo))
    (stock_code : String) : RetryResult (Option StockInfo) :=
  retry attempts 3 2 2 "process_stock" stock_code

/-- Lines 417-420: the `as_completed` loop keeps `future.result()` when it
is truthy.  The wrapped task never raises (the wrapper returns `None`
instead), and a `None` — from exhausted retries or from a predicate
rejection — contributes nothing. -/
def collect_results (stock_codes : List String)
    (outcome : String → RetryResult (Option StockInfo)) : List StockInfo :=
  stock_codes.filterMap (fun c => ((outcome c).result).bind id)

/-- Effects of one whole run of the script: which external calls happened
and which files were written. -/
structure RunTrace where
  universeFetchCalls : Nat
  snapshotWritten : Bool
  universeReadFromFile : Bool
  priceCalls : Bool
  screeningRun : Bool
  resultWritten : Bool
deriving DecidableEq

/-- Lines 145-166, `get_stocks_info`: `adata.stock.info.all_code()` is
called unconditionally; only the snapshot write is guarded by the file's
existence. -/
def get_stocks_info (snapshotExists : Bool) : Nat × Bool :=
  (1, !snapshotExists)

/-- Lines 393-429, the top-level script: everything is guarded by the
existence of today's result file; when it is absent, `get_stocks_info`
runs, the universe is read back from the snapshot file (line 403), the
pool fetches and screens every ticker, and the result file is written. -/
def mainRun (resultExists snapshotExists : Bool) : RunTrace :=
  if resultExists then ⟨0, false, false, false, false, false⟩
  else
    let g := get_stocks_info snapshotExists
    ⟨g.1, g.2, true, true, true, true⟩

/-- State of the result file on disk. -/
inductive FileState where
  | absent
  | content (s : String)
deriving DecidableEq

/-- Where the run stops while persisting the results, if at all. -/
inductive WriteFault where
  | beforeOpen
  | afterChunks (k : Nat)
  | noFault
deriving DecidableEq

/-- Lines 423-425: `with open(file_name, 'w') as f: json.dump(results, f)`.
`open(..., 'w')` truncates/creates the file, then `json.dump` streams the
serialization chunk by chunk.  The second component reports whether an
exception reached the caller (nothing catches it).  A fault before the
open leaves the previous state; a fault after `k` chunks leaves the
written prefix on disk. -/
def writeResultFile (prev : FileState) (chunks : List String) :
    WriteFault → FileState × Bool
  | .beforeOpen => (prev, true)
  | .afterChunks k => (.content (String.join (chunks.take k)), true)
  | .noFault => (.content (String.join chunks), false)

/-! ### Helper lemmas about the embedded operations -/

theorem highsQ_length : ∀ {df : DataFrame} {hs : List ℚ},
    df.highsQ = some hs → hs.length = df.length := by
  intro df
  induction df with
  | nil =>
    intro hs h
    simp [DataFrame.highsQ] at h
    simp [← h]
  | cons b df ih =>
    intro hs h
    cases hb : b.high with
    | str s => simp [DataFrame.highsQ, hb] at h
    | num q =>
      simp [DataFrame.highsQ, hb, Option.map_eq_some'] at h
      obtain ⟨tl, htl, rfl⟩ := h
      simp [ih htl]

theorem highs_eq_of_highsQ : ∀ {df : DataFrame} {hs : List ℚ},
    df.highsQ = some hs → df.highs = hs.map RawVal.num := by
  intro df
  induction df with
  | nil =>
    intro hs h
    simp [DataFrame.highsQ] at h
    simp [DataFrame.highs, ← h]
  | cons b df ih =>
    intro hs h
    cases hb : b.high with
    | str s => simp [DataFrame.highsQ, hb] at h
    | num q =>
      simp [DataFrame.highsQ, hb, Option.map_eq_some'] at h
      obtain ⟨tl, htl, rfl⟩ := h
      simp [DataFrame.highs, hb] at ih ⊢
      exact ih htl

theorem astypeFloat_of_highsQ : ∀ {df : DataFrame} {hs : List ℚ},
    df.highsQ = some hs → astypeFloat df = .ok hs := by
  intro df
  induction df with
  | nil =>
    intro hs h
    simp [DataFrame.highsQ] at h
    simp [astypeFloat, ← h]
  | cons b df ih =>
    intro hs h
    cases hb : b.high with
    | str s => simp [DataFrame.highsQ, hb] at h
    | num q =>
      simp [DataFrame.highsQ, hb, Option.map_eq_some'] at h
      obtain ⟨tl, htl, rfl⟩ := h
      simp [astypeFloat, hb, RawVal.toFloat, ih htl]

theorem zipWith_coerceHigh_self : ∀ {df : DataFrame} {hs : List ℚ},
    df.highsQ = some hs → df.zipWith coerceHigh hs = df := by
  intro df
  induction df with
  | nil => intro hs _; simp
  | cons b df ih =>
    intro hs h
    cases hb : b.high with
    | str s => simp [DataFrame.highsQ, hb] at h
    | num q =>
      simp [DataFrame.highsQ, hb, Option.map_eq_some'] at h
      obtain ⟨tl, htl, rfl⟩ := h
      simp [coerceHigh, ih htl]
      cases b with
      | mk d hi =>
        simp at hb
        simp [hb]

theorem highsQ_zipWith_coerce : ∀ {df : DataFrame} {qs : List ℚ},
    qs.length = df.length → DataFrame.highsQ (df.zipWith coerceHigh qs) = some qs := by
  intro df
  induction df with
  | nil =>
    intro qs h
    simp at h
    simp [h, DataFrame.highsQ]
  | cons b df ih =>
    intro qs h
    cases qs with
    | nil => simp at h
    | cons q qs =>
      simp at h
      simp [coerceHigh, DataFrame.highsQ, ih h]

theorem astypeFloat_length : ∀ {df : DataFrame} {qs : List ℚ},
    astypeFloat df = .ok qs → qs.length = df.length := by
  intro df
  induction df with
  | nil =>
    intro qs h
    simp [astypeFloat] at h
    simp [← h]
  | cons b df ih =>
    intro qs h
    cases hb : b.high.toFloat with
    | error e => simp [astypeFloat, hb] at h
    | ok q =>
      cases htl : astypeFloat df with
      | error e => simp [astypeFloat, hb, htl] at h
      | ok tl =>
        simp [astypeFloat, hb, htl] at h
        simp [← h, ih htl]

theorem trade_dates_zipWith : ∀ {df : DataFrame} {qs : List ℚ},
    qs.length = df.length →
      (df.zipWith coerceHigh qs).map Bar.trade_date = df.map Bar.trade_date := by
  intro df
  induction df with
  | nil => intro qs _; simp
  | cons b df ih =>
    intro qs h
    cases qs with
    | nil => simp at h
    | cons q qs =>
      simp at h
      simp [coerceHigh, ih h]

theorem getLastD_eq_getD : ∀ {l : List α}, l ≠ [] → ∀ (d : α),
    l.getLastD d = l.getD (l.length - 1) d := by
  intro l
  induction l with
  | nil => intro h; exact absurd rfl h
  | cons a tl ih =>
    intro _ d
    cases tl with
    | nil => rfl
    | cons b tl2 =>
      have := ih (by simp) d
      simp only [List.getLastD_cons] at this ⊢
      rw [this]
      simp [List.getD]

theorem rankSort_perm (l : List (Nat × ℚ)) : (rankSort l).Perm l :=
  List.perm_insertionSort keyLe l

theorem rankSort_length (l : List (Nat × ℚ)) : (rankSort l).length = l.length :=
  (rankSort_perm l).length_eq

theorem rankSort_sorted (l : List (Nat × ℚ)) : List.Sorted keyLe (rankSort l) :=
  List.sorted_insertionSort keyLe l

theorem pyTail_length (l : List α) (n : Nat) : (pyTail l n).length = min n l.length := by
  simp [pyTail]
  omega

theorem rankSort_enum_fst_nodup (hs : List ℚ) :
    ((rankSort hs.enum).map Prod.fst).Nodup := by
  have hperm : ((rankSort hs.enum).map Prod.fst).Perm (hs.enum.map Prod.fst) :=
    (rankSort_perm hs.enum).map _
  have h2 : (hs.enum.map Prod.fst).Nodup := by
    rw [List.enum_map_fst]
    exact List.nodup_range _
  exact hperm.nodup_iff.mpr h2

theorem mem_rankSort_enum {hs : List ℚ} {p : Nat × ℚ} (hp : p ∈ rankSort hs.enum) :
    p.1 < hs.length ∧ hs.getD p.1 0 = p.2 := by
  have hmem : p ∈ hs.enum := (rankSort_perm hs.enum).mem_iff.mp hp
  have hsome := List.mem_enum_iff_getElem?.mp hmem
  have hlt : p.1 < hs.length := by
    by_contra hc
    rw [List.getElem?_eq_none (by omega)] at hsome
    exact Option.noConfusion hsome
  refine ⟨hlt, ?_⟩
  rw [List.getElem?_eq_getElem hlt] at hsome
  rw [List.getD_eq_getElem _ _ hlt]
  exact Option.some.inj hsome

theorem enum_mem_rankSort {hs : List ℚ} {j : Nat} (hj : j < hs.length) :
    (j, hs.getD j 0) ∈ rankSort hs.enum := by
  have hmem : (j, hs.getD j 0) ∈ hs.enum := by
    rw [List.mem_enum_iff_getElem?]
    simp [List.getElem?_eq_getElem hj, List.getD_eq_getElem _ _ hj]
  exact (rankSort_perm hs.enum).mem_iff.mpr hmem

theorem rankSort_pairwise {hs : List ℚ} {i j : Nat}
    (hi : i < (rankSort hs.enum).length) (hj : j < (rankSort hs.enum).length)
    (hij : i < j) :
    keyLe ((rankSort hs.enum)[i]) ((rankSort hs.enum)[j]) := by
  have hsrt : List.Pairwise keyLe (rankSort hs.enum) := rankSort_sorted hs.enum
  exact List.pairwise_iff_getElem.mp hsrt i j hi hj hij

/-- The n-th ranked pair (0-based `n` here) dominates: every value of the
column is at most its value once the earlier ranks are excluded, and a
strictly earlier position with the same value would itself have been
ranked earlier — the pandas `keep='first'` tie policy. -/
theorem rankSort_rank_spec (hs : List ℚ) (n : Nat) (hn : n < hs.length)
    (j : Nat) (hj : j < hs.length)
    (hskip : ∀ k, k < n → ((rankSort hs.enum).getD k (0, 0)).1 ≠ j) :
    hs.getD j 0 ≤ ((rankSort hs.enum).getD n (0, 0)).2 ∧
      (j < ((rankSort hs.enum).getD n (0, 0)).1 →
        hs.getD j 0 < ((rankSort hs.enum).getD n (0, 0)).2) := by
  have hlen : (rankSort hs.enum).length = hs.length := by
    rw [rankSort_length, List.enum_length]
  have hnL : n < (rankSort hs.enum).length := by omega
  obtain ⟨m, hm, hmeq⟩ := List.mem_iff_getElem.mp (@enum_mem_rankSort hs j hj)
  have hge : n ≤ m := by
    by_contra hc
    push_neg at hc
    have hne := hskip m hc
    rw [List.getD_eq_getElem _ _ hm, hmeq] at hne
    exact hne rfl
  rw [List.getD_eq_getElem _ _ hnL]
  rcases Nat.eq_or_lt_of_le hge with heq | hlt
  · subst heq
    rw [hmeq]
    exact ⟨le_refl _, fun h => absurd h (lt_irrefl j)⟩
  · have hkey := @rankSort_pairwise hs n m (by omega) hm hlt
    rw [hmeq] at hkey
    rcases hkey with hk | ⟨hk, hk1⟩
    · exact ⟨le_of_lt hk, fun _ => hk⟩
    · exact ⟨le_of_eq hk.symm, fun hjlt => absurd hk1 (by omega)⟩

theorem get_nth_high_info_eq {df : DataFrame} {hs : List ℚ} (hq : df.highsQ = some hs)
    {n : Nat} (h1 : 1 ≤ n) (hn : n ≤ df.length) :
    get_nth_high_info df n =
      some ((df.map Bar.trade_date).getD (nthHighPair hs n).1 0,
        (nthHighPair hs n).2, (nthHighPair hs n).1) := by
  have hlhs : hs.length = df.length := highsQ_length hq
  have hlen : (rankSort hs.enum).length = hs.length := by
    rw [rankSort_length, List.enum_length]
  have hidx2 : n - 1 < (rankSort hs.enum).length := by omega
  have hidx : n - 1 < ((rankSort hs.enum).take n).length := by
    rw [List.length_take]
    omega
  have htake : ((rankSort hs.enum).take n)[n - 1] = (rankSort hs.enum)[n - 1] :=
    List.getElem_take _
  unfold get_nth_high_info nlargestIdx
  rw [if_neg (by omega)]
  simp only [hq, List.getElem?_eq_getElem hidx, htake]
  unfold nthHighPair
  rw [List.getD_eq_getElem _ _ hidx2]

theorem filterThreeBody_spec {df' : DataFrame} {hs : List ℚ}
    (hq : df'.highsQ = some hs) (h3 : 3 ≤ df'.length) :
    filterThreeBody df' hs =
      (.ok (decide ((df'.map Bar.trade_date).getD (nthHighPair hs 1).1 0 =
            (df'.map Bar.trade_date).getLastD 0 ∧
          ((((nthHighPair hs 1).1 : ℤ) - ((nthHighPair hs 2).1 : ℤ)).natAbs ≠ 1 ∨
           (((nthHighPair hs 1).1 : ℤ) - ((nthHighPair hs 3).1 : ℤ)).natAbs ≠ 1))),
        df') := by
  have hlhs : hs.length = df'.length := highsQ_length hq
  have htt : (nlargestIdx (pyTail hs 7) 2).length = 2 := by
    unfold nlargestIdx
    rw [List.length_take, rankSort_length, List.enum_length, pyTail_length]
    omega
  unfold filterThreeBody
  simp only [htt, get_nth_high_info_eq hq (by omega) (by omega : 1 ≤ df'.length),
    get_nth_high_info_eq hq (by omega) (by omega : 2 ≤ df'.length),
    get_nth_high_info_eq hq (by omega) (by omega : 3 ≤ df'.length),
    Nat.lt_irrefl, if_false]

theorem filter_logic_three_of_highsQ {df : DataFrame} {qs : List ℚ}
    (hq : df.highsQ = some qs) (hne : df ≠ []) :
    filter_logic_three df = filterThreeBody df qs := by
  have hie : df.isEmpty = false := by
    cases df with
    | nil => exact absurd rfl hne
    | cons a l => rfl
  unfold filter_logic_three
  rw [hie]
  simp only [Bool.false_eq_true, if_false, astypeFloat_of_highsQ hq,
    zipWith_coerceHigh_self hq]

theorem filter_logic_three_spec {df : DataFrame} {hs : List ℚ}
    (hq : df.highsQ = some hs) (h3 : 3 ≤ df.length) :
    filter_logic_three df =
      (.ok (decide ((df.map Bar.trade_date).getD (nthHighPair hs 1).1 0 =
            (df.map Bar.trade_date).getLastD 0 ∧
          ((((nthHighPair hs 1).1 : ℤ) - ((nthHighPair hs 2).1 : ℤ)).natAbs ≠ 1 ∨
           (((nthHighPair hs 1).1 : ℤ) - ((nthHighPair hs 3).1 : ℤ)).natAbs ≠ 1))),
        df) := by
  have hie : df.isEmpty = false := by
    cases df with
    | nil => simp at h3
    | cons a l => rfl
  unfold filter_logic_three
  rw [hie]
  simp only [Bool.false_eq_true, if_false, astypeFloat_of_highsQ hq,
    zipWith_coerceHigh_self hq]
  exact filterThreeBody_spec hq h3

theorem pyTail_map (f : α → β) (l : List α) (n : Nat) :
    pyTail (l.map f) n = (pyTail l n).map f := by
  simp [pyTail, List.map_drop, List.length_map]

theorem chainLt_num : ∀ (l : List ℚ),
    chainLt (l.map RawVal.num) = .ok (decide (List.Chain' (fun a b : ℚ => a < b) l)) := by
  intro l
  induction l with
  | nil => rfl
  | cons a tl ih =>
    cases tl with
    | nil => simp [chainLt]
    | cons b rest =>
      by_cases hab : a < b
      · simp only [List.map_cons] at ih ⊢
        simp [chainLt, RawVal.pyLt, hab, ih, List.chain'_cons]
      · simp only [List.map_cons] at ih ⊢
        simp [chainLt, RawVal.pyLt, hab, List.chain'_cons]

theorem filterThreeBody_snd (df' : DataFrame) (qs : List ℚ) :
    (filterThreeBody df' qs).2 = df' := by
  unfold filterThreeBody
  by_cases h : (nlargestIdx (pyTail qs 7) 2).length < 2
  · simp [h]
  · simp only [h, if_false]
    rcases g1 : get_nth_high_info df' 1 with _ | ⟨d1, v1, i1⟩ <;>
      rcases g2 : get_nth_high_info df' 2 with _ | ⟨d2, v2, i2⟩ <;>
        rcases g3 : get_nth_high_info df' 3 with _ | ⟨d3, v3, i3⟩ <;> simp

theorem collect_results_cons (c : String) (tl : List String)
    (outcome : String → RetryResult (Option StockInfo)) :
    collect_results (c :: tl) outcome =
      match ((outcome c).result).bind id with
      | none => collect_results tl outcome
      | some i => i :: collect_results tl outcome := by
  simp only [collect_results, List.filterMap_cons]
  cases ((outcome c).result).bind id <;> rfl

theorem collect_results_drop_none (codes : List String)
    (outcome : String → RetryResult (Option StockInfo)) (code : String)
    (h : ((outcome code).result).bind id = none) :
    collect_results codes outcome =
      collect_results (codes.filter (fun c => !(c == code))) outcome := by
  induction codes with
  | nil => rfl
  | cons c tl ih =>
    rw [List.filter_cons]
    by_cases hc : c = code
    · subst hc
      have hb : (!(c == c)) = false := by simp
      rw [hb]
      simp only [Bool.false_eq_true, if_false]
      rw [collect_results_cons, h]
      exact ih
    · have hb : (!(c == code)) = true := by simp [hc]
      rw [hb]
      simp only [if_true]
      rw [collect_results_cons, collect_results_cons]
      cases hr : ((outcome c).result).bind id <;> simp only [ih]

/-! ### Claim theorems -/

/-- C4: for every price series with at least 3 bars (float highs, per the
data model), PeakPositionPattern (`filter_logic_three`) returns true iff
the single highest bar's trade_date equals the last bar's trade_date and
the 1st/2nd highest bars or the 1st/3rd highest bars are at index distance
other than 1.  The accompanying conjuncts pin down the n-th-highest
selection: each ranked value is the column value at its index, every other
(not yet ranked) position's value is at most it, and any strictly earlier
position has a strictly smaller value — i.e. ties resolve to the earlier
position in original series order — and the three ranked indices are
in range and pairwise distinct. -/
theorem C4_peak_position_pattern (df : DataFrame) (hs : List ℚ)
    (hq : df.highsQ = some hs) (h3 : 3 ≤ df.length) :
    (((filter_logic_three df).1 = .ok true) ↔
      ((df.map Bar.trade_date).getD (nthHighPair hs 1).1 0 =
          (df.map Bar.trade_date).getLastD 0 ∧
        ((((nthHighPair hs 1).1 : ℤ) - ((nthHighPair hs 2).1 : ℤ)).natAbs ≠ 1 ∨
         (((nthHighPair hs 1).1 : ℤ) - ((nthHighPair hs 3).1 : ℤ)).natAbs ≠ 1)))
    ∧ (∀ j, j < hs.length → hs.getD j 0 ≤ (nthHighPair hs 1).2)
    ∧ (∀ j, j < (nthHighPair hs 1).1 → hs.getD j 0 < (nthHighPair hs 1).2)
    ∧ (∀ j, j < hs.length → j ≠ (nthHighPair hs 1).1 →
        hs.getD j 0 ≤ (nthHighPair hs 2).2)
    ∧ (∀ j, j < (nthHighPair hs 2).1 → j ≠ (nthHighPair hs 1).1 →
        hs.getD j 0 < (nthHighPair hs 2).2)
    ∧ (∀ j, j < hs.length → j ≠ (nthHighPair hs 1).1 → j ≠ (nthHighPair hs 2).1 →
        hs.getD j 0 ≤ (nthHighPair hs 3).2)
    ∧ (∀ j, j < (nthHighPair hs 3).1 → j ≠ (nthHighPair hs 1).1 →
        j ≠ (nthHighPair hs 2).1 → hs.getD j 0 < (nthHighPair hs 3).2)
    ∧ (hs.getD (nthHighPair hs 1).1 0 = (nthHighPair hs 1).2
        ∧ hs.getD (nthHighPair hs 2).1 0 = (nthHighPair hs 2).2
        ∧ hs.getD (nthHighPair hs 3).1 0 = (nthHighPair hs 3).2)
    ∧ ((nthHighPair hs 1).1 < hs.length ∧ (nthHighPair hs 2).1 < hs.length
        ∧ (nthHighPair hs 3).1 < hs.length)
    ∧ ((nthHighPair hs 1).1 ≠ (nthHighPair hs 2).1
        ∧ (nthHighPair hs 1).1 ≠ (nthHighPair hs 3).1
        ∧ (nthHighPair hs 2).1 ≠ (nthHighPair hs 3).1) := by
  have hlhs : hs.length = df.length := highsQ_length hq
  have hL : (rankSort hs.enum).length = hs.length := by
    rw [rankSort_length, List.enum_length]
  have hp1 : nthHighPair hs 1 = (rankSort hs.enum).getD 0 (0, 0) := rfl
  have hp2 : nthHighPair hs 2 = (rankSort hs.enum).getD 1 (0, 0) := rfl
  have hp3 : nthHighPair hs 3 = (rankSort hs.enum).getD 2 (0, 0) := rfl
  have hm1 : (nthHighPair hs 1).1 < hs.length ∧
      hs.getD (nthHighPair hs 1).1 0 = (nthHighPair hs 1).2 := by
    apply mem_rankSort_enum
    rw [hp1, List.getD_eq_getElem _ _ (by omega)]
    exact List.getElem_mem _
  have hm2 : (nthHighPair hs 2).1 < hs.length ∧
      hs.getD (nthHighPair hs 2).1 0 = (nthHighPair hs 2).2 := by
    apply mem_rankSort_enum
    rw [hp2, List.getD_eq_getElem _ _ (by omega)]
    exact List.getElem_mem _
  have hm3 : (nthHighPair hs 3).1 < hs.length ∧
      hs.getD (nthHighPair hs 3).1 0 = (nthHighPair hs 3).2 := by
    apply mem_rankSort_enum
    rw [hp3, List.getD_eq_getElem _ _ (by omega)]
    exact List.getElem_mem _
  have hnd := rankSort_enum_fst_nodup hs
  have hdist : ∀ a b : Nat, a < hs.length → b < hs.length → a ≠ b →
      ((rankSort hs.enum).getD a (0, 0)).1 ≠ ((rankSort hs.enum).getD b (0, 0)).1 := by
    intro a b ha hb hab
    rw [List.getD_eq_getElem _ _ (by omega), List.getD_eq_getElem _ _ (by omega)]
    intro he
    have hla : a < ((rankSort hs.enum).map Prod.fst).length := by
      simp
      omega
    have hlb : b < ((rankSort hs.enum).map Prod.fst).length := by
      simp
      omega
    have hmap : ((rankSort hs.enum).map Prod.fst)[a] =
        ((rankSort hs.enum).map Prod.fst)[b] := by
      simp only [List.getElem_map]
      exact he
    exact hab (hnd.getElem_inj_iff.mp hmap)
  refine ⟨?_, ?_, ?_, ?_, ?_, ?_, ?_, ⟨hm1.2, hm2.2, hm3.2⟩, ⟨hm1.1, hm2.1, hm3.1⟩,
    hdist 0 1 (by omega) (by omega) (by omega),
    hdist 0 2 (by omega) (by omega) (by omega),
    hdist 1 2 (by omega) (by omega) (by omega)⟩
  · rw [filter_logic_three_spec hq h3]
    simp [decide_eq_true_eq]
  · intro j hj
    exact (rankSort_rank_spec hs 0 (by omega) j hj (fun k hk => absurd hk (Nat.not_lt_zero k))).1
  · intro j hj
    have hjlen : j < hs.length := by
      have := hm1.1
      omega
    exact (rankSort_rank_spec hs 0 (by omega) j hjlen
      (fun k hk => absurd hk (Nat.not_lt_zero k))).2 hj
  · intro j hj hne
    refine (rankSort_rank_spec hs 1 (by omega) j hj ?_).1
    intro k hk
    interval_cases k
    rw [← hp1]
    exact fun he => hne he.symm
  · intro j hj hne
    have hjlen : j < hs.length := by
      have := hm2.1
      omega
    refine (rankSort_rank_spec hs 1 (by omega) j hjlen ?_).2 hj
    intro k hk
    interval_cases k
    rw [← hp1]
    exact fun he => hne he.symm
  · intro j hj hne1 hne2
    refine (rankSort_rank_spec hs 2 (by omega) j hj ?_).1
    intro k hk
    interval_cases k
    · rw [← hp1]
      exact fun he => hne1 he.symm
    · rw [← hp2]
      exact fun he => hne2 he.symm
  · intro j hj hne1 hne2
    have hjlen : j < hs.length := by
      have := hm3.1
      omega
    refine (rankSort_rank_spec hs 2 (by omega) j hjlen ?_).2 hj
    intro k hk
    interval_cases k
    · rw [← hp1]
      exact fun he => hne1 he.symm
    · rw [← hp2]
      exact fun he => hne2 he.symm

/-- Three bars whose peak is last and not adjacent to the 2nd highest:
passes `filter_logic_three` but is far too short for ContinuousRise. -/
def dfPeak : DataFrame := [⟨1, .num 5⟩, ⟨2, .num 1⟩, ⟨3, .num 10⟩]

/-- A two-bar frame (numeric highs). -/
def dfTwo : DataFrame := [⟨1, .num 5⟩, ⟨2, .num 7⟩]

/-- A one-bar frame (numeric high). -/
def dfOne : DataFrame := [⟨1, .num 5⟩]

/-- A one-bar frame whose high is the provider string "5". -/
def dfStrOne : DataFrame := [⟨1, .str "5"⟩]

/-- Ten bars with strictly increasing numeric highs 1..10. -/
def dfRise : DataFrame :=
  [⟨1, .num 1⟩, ⟨2, .num 2⟩, ⟨3, .num 3⟩, ⟨4, .num 4⟩, ⟨5, .num 5⟩,
   ⟨6, .num 6⟩, ⟨7, .num 7⟩, ⟨8, .num 8⟩, ⟨9, .num 9⟩, ⟨10, .num 10⟩]

/-- Ten bars whose raw string highs are lexicographically increasing but
numerically not: the first step goes from 10 down to 2. -/
def dfStr : DataFrame :=
  [⟨1, .str "10"⟩, ⟨2, .str "2"⟩, ⟨3, .str "3"⟩, ⟨4, .str "4"⟩, ⟨5, .str "5"⟩,
   ⟨6, .str "6"⟩, ⟨7, .str "7"⟩, ⟨8, .str "8"⟩, ⟨9, .str "9"⟩, ⟨10, .str "91"⟩]

/-- The float coercion of `dfStr`'s high column. -/
def qsStr : List ℚ := [10, 2, 3, 4, 5, 6, 7, 8, 9, 91]

/-- C4 witness: on the three-bar frame with highs 5, 1, 10 (peak last, 2nd
highest not adjacent to it) the predicate returns true, via the C4
characterization with its hypotheses discharged concretely. -/
theorem C4_witness : (filter_logic_three dfPeak).1 = .ok true :=
  ((C4_peak_position_pattern dfPeak [5, 1, 10] (by decide) (by decide)).1).mpr (by decide)

/-- C10: `is_price_increasing` returns true exactly when the series has at
least 10 bars and the last 10 highs are strictly increasing day-over-day
(so any equal or decreasing adjacent pair in that tail, or a length below
10, yields false), and it never raises on a float-typed column. -/
theorem C10_continuous_rise (df : DataFrame) (hs : List ℚ)
    (hq : df.highsQ = some hs) :
    (is_price_increasing df).1 =
      .ok (decide (10 ≤ df.length ∧
        ∀ i, i < (hs.drop (hs.length - 10)).length - 1 →
          (hs.drop (hs.length - 10)).getD i 0 <
            (hs.drop (hs.length - 10)).getD (i + 1) 0)) := by
  have hlhs : hs.length = df.length := highsQ_length hq
  by_cases h10 : df.length < 10
  · have hnot : ¬(10 ≤ df.length ∧
        ∀ i, i < (hs.drop (hs.length - 10)).length - 1 →
          (hs.drop (hs.length - 10)).getD i 0 <
            (hs.drop (hs.length - 10)).getD (i + 1) 0) := by
      intro hcon
      have := hcon.1
      omega
    simp [is_price_increasing, h10, hnot]
  · unfold is_price_increasing
    rw [if_neg h10, highs_eq_of_highsQ hq, pyTail_map, chainLt_num]
    have hiff : (List.Chain' (fun a b : ℚ => a < b) (pyTail hs 10)) ↔
        (10 ≤ df.length ∧
          ∀ i, i < (hs.drop (hs.length - 10)).length - 1 →
            (hs.drop (hs.length - 10)).getD i 0 <
              (hs.drop (hs.length - 10)).getD (i + 1) 0) := by
      have hpt : pyTail hs 10 = hs.drop (hs.length - 10) := rfl
      rw [hpt]
      constructor
      · intro hc
        refine ⟨by omega, ?_⟩
        intro i hi
        have hstep := List.chain'_iff_get.mp hc i hi
        have hi1 : i < (hs.drop (hs.length - 10)).length := by omega
        have hi2 : i + 1 < (hs.drop (hs.length - 10)).length := by omega
        rw [List.getD_eq_getElem _ _ hi1, List.getD_eq_getElem _ _ hi2]
        simpa [List.get_eq_getElem] using hstep
      · intro hc
        rw [List.chain'_iff_get]
        intro i hi
        have hstep := hc.2 i hi
        have hi1 : i < (hs.drop (hs.length - 10)).length := by omega
        have hi2 : i + 1 < (hs.drop (hs.length - 10)).length := by omega
        rw [List.getD_eq_getElem _ _ hi1, List.getD_eq_getElem _ _ hi2] at hstep
        simpa [List.get_eq_getElem] using hstep
    simp only [decide_eq_decide.mpr hiff]

/-- C10 witness: on ten bars with highs 1..10 the predicate returns true. -/
theorem C10_witness : (is_price_increasing dfRise).1 = .ok true := by
  rw [C10_continuous_rise dfRise [1, 2, 3, 4, 5, 6, 7, 8, 9, 10] (by decide)]
  decide

/-- C2 (amended): `is_price_increasing`, `is_30_to_7_high_max` and
`is_seven_equals_thirty_high` return false without raising whenever the
series is shorter than their lookback (10, 30, 30); `filter_logic_three`
does so only for empty and one-bar series — see the counterexample for the
two-bar case, where it raises instead. -/
theorem C2_short_series_amended (df : DataFrame) (hs : List ℚ)
    (hq : df.highsQ = some hs) :
    (df.length < 10 → (is_price_increasing df).1 = .ok false)
    ∧ (df.length < 30 → (is_30_to_7_high_max df).1 = .ok false
        ∧ (is_seven_equals_thirty_high df).1 = .ok false)
    ∧ (df.length < 2 → (filter_logic_three df).1 = .ok false) := by
  refine ⟨fun h => by simp [is_price_increasing, h],
    fun h => ⟨by simp [is_30_to_7_high_max, h],
      by simp [is_seven_equals_thirty_high, h]⟩,
    fun h => ?_⟩
  cases df with
  | nil => rfl
  | cons b tl =>
    cases tl with
    | cons b2 tl2 =>
      simp at h
      omega
    | nil =>
      cases hb : b.high with
      | str s => simp [DataFrame.highsQ, hb] at hq
      | num q =>
        simp [filter_logic_three, astypeFloat, hb, RawVal.toFloat, filterThreeBody,
          nlargestIdx, rankSort, List.insertionSort, List.orderedInsert, pyTail,
          coerceHigh, List.enum, List.enumFrom]

/-- C2 witness: a one-bar numeric series is below every lookback and all
four predicates return false. -/
theorem C2_witness : (is_price_increasing dfOne).1 = .ok false
    ∧ (is_30_to_7_high_max dfOne).1 = .ok false
    ∧ (is_seven_equals_thirty_high dfOne).1 = .ok false
    ∧ (filter_logic_three dfOne).1 = .ok false := by
  obtain ⟨h1, h2, h3⟩ := C2_short_series_amended dfOne [5] (by decide)
  exact ⟨h1 (by decide), (h2 (by decide)).1, (h2 (by decide)).2, h3 (by decide)⟩

/-- C2 counterexample: a two-bar series is shorter than the 3 bars
`filter_logic_three` needs, yet the predicate raises a `TypeError` (the
third-highest lookup returns None, which is then subtracted) instead of
returning false. -/
theorem C2_counterexample : dfTwo.length = 2
    ∧ filter_logic_three dfTwo = (.error .typeError, dfTwo) := by decide

/-- C3 (amended): `is_price_increasing`, `is_30_to_7_high_max` and
`is_seven_equals_thirty_high` never change the input frame; the in-place
`astype(float)` of `filter_logic_three` leaves a frame whose highs are
already floats unchanged as well (but does rewrite string-typed highs —
see the counterexample). -/
theorem C3_purity_amended (df : DataFrame) (hs : List ℚ)
    (hq : df.highsQ = some hs) :
    (is_price_increasing df).2 = df
    ∧ (is_30_to_7_high_max df).2 = df
    ∧ (is_seven_equals_thirty_high df).2 = df
    ∧ (filter_logic_three df).2 = df := by
  refine ⟨?_, ?_, ?_, ?_⟩
  · by_cases h : df.length < 10 <;> simp [is_price_increasing, h]
  · by_cases h : df.length < 30 <;> simp [is_30_to_7_high_max, h]
  · by_cases h : df.length < 30 <;> simp [is_seven_equals_thirty_high, h]
  · by_cases h : df.isEmpty
    · simp [filter_logic_three, h]
    · simp only [filter_logic_three, h, Bool.false_eq_true, if_false,
        astypeFloat_of_highsQ hq, zipWith_coerceHigh_self hq]
      exact filterThreeBody_snd df hs

/-- C3 witness: on the three-bar float frame every predicate leaves the
frame unchanged. -/
theorem C3_witness : (is_price_increasing dfPeak).2 = dfPeak
    ∧ (is_30_to_7_high_max dfPeak).2 = dfPeak
    ∧ (is_seven_equals_thirty_high dfPeak).2 = dfPeak
    ∧ (filter_logic_three dfPeak).2 = dfPeak :=
  C3_purity_amended dfPeak [5, 1, 10] (by decide)

/-- C3 counterexample: on a frame whose raw high is the string "5",
`filter_logic_three` rewrites the high column in place, so the input frame
is mutated — the predicate is not pure. -/
theorem C3_counterexample :
    (filter_logic_three dfStrOne).2 = [⟨1, RawVal.num 5⟩]
    ∧ (filter_logic_three dfStrOne).2 ≠ dfStrOne := by decide

/-- C9 (amended): only `filter_logic_three` coerces the high column to
float before comparing: its verdict on a series whose raw highs all coerce
equals its verdict on the pre-coerced series.  The other predicates
compare raw values (see the counterexample, where lexicographic string
order disagrees with numeric order). -/
theorem C9_coercion_amended (df : DataFrame) (qs : List ℚ)
    (h : astypeFloat df = .ok qs) :
    (filter_logic_three df).1 =
      (filter_logic_three (df.zipWith coerceHigh qs)).1 := by
  have hlen : qs.length = df.length := astypeFloat_length h
  cases df with
  | nil =>
    simp at hlen
    simp [hlen, filter_logic_three]
  | cons b tl =>
    cases qs with
    | nil => simp at hlen
    | cons q qtl =>
      have hq2 : DataFrame.highsQ ((b :: tl).zipWith coerceHigh (q :: qtl)) =
          some (q :: qtl) := highsQ_zipWith_coerce hlen
      have hzne : (b :: tl).zipWith coerceHigh (q :: qtl) ≠ [] := by
        simp
      have hstep : filter_logic_three (b :: tl) =
          filterThreeBody ((b :: tl).zipWith coerceHigh (q :: qtl)) (q :: qtl) := by
        have hie : (b :: tl).isEmpty = false := rfl
        unfold filter_logic_three
        rw [hie, h]
        rfl
      rw [hstep, filter_logic_three_of_highsQ hq2 hzne]

/-- C9 witness: on the string frame, whose highs all parse, the coercion
invariance of `filter_logic_three` holds. -/
theorem C9_witness : (filter_logic_three dfStr).1 =
    (filter_logic_three (dfStr.zipWith coerceHigh qsStr)).1 :=
  C9_coercion_amended dfStr qsStr (by decide)

/-- C9 counterexample: `is_price_increasing` compares the raw provider
representation: on string highs "10","2",...,"91" it returns true
(lexicographic order), while on the float-coerced column it returns false
(10 > 2) — its result does not agree with numeric ordering of the highs. -/
theorem C9_counterexample :
    (is_price_increasing dfStr).1 = .ok true
    ∧ astypeFloat dfStr = .ok qsStr
    ∧ (is_price_increasing (dfStr.zipWith coerceHigh qsStr)).1 = .ok false := by
  decide

/-- A metadata table knowing just the ticker "000001". -/
def lookupOne : String → Option StockMeta :=
  fun c => if c = "000001" then some ⟨"demo", "SZ", "2020-01-01"⟩ else none

/-- C1 counterexample: with the chain the script wires in
(`[filter_logic_three]`), the three-bar series `dfPeak` makes
`process_stock` emit a result — the ticker is added — although the chain
the claim describes (ContinuousRise, RecentHighDominance,
PeakPositionPattern) rejects it: ContinuousRise is false on 3 bars. -/
theorem C1_counterexample :
    process_stock (.ok dfPeak) lookupOne "000001" filters_to_apply =
      .ok (some ⟨"000001", "demo", "SZ", "2020-01-01"⟩)
    ∧ (applyFilters specChain dfPeak).1 = .ok false := by decide

/-- C1 (amended): a fetched ticker is added to the result set iff its
frame is non-empty and the configured chain — which consists solely of
`filter_logic_three` — evaluated in order with short-circuit, returns
true. -/
theorem C1_configured_chain_amended (df : DataFrame)
    (lookup : String → Option StockMeta) (code : String) (m : StockMeta)
    (hm : lookup code = some m) :
    process_stock (.ok df) lookup code filters_to_apply =
        .ok (some ⟨code, m.short_name, m.exchange, m.list_date⟩)
      ↔ (df.isEmpty = false ∧ (applyFilters filters_to_apply df).1 = .ok true) := by
  unfold process_stock
  cases hie : df.isEmpty with
  | true => simp [hie]
  | false =>
    simp only [hie, Bool.false_eq_true, if_false]
    rcases hap : applyFilters filters_to_apply df with ⟨r, st⟩
    rcases r with e | b
    · simp [hap]
    · cases b
      · simp [hap]
      · simp [hap, hm]

/-- C1 amended witness: the concrete three-bar series is added. -/
theorem C1_witness :
    process_stock (.ok dfPeak) lookupOne "000001" filters_to_apply =
      .ok (some ⟨"000001", "demo", "SZ", "2020-01-01"⟩) :=
  (C1_configured_chain_amended dfPeak lookupOne "000001"
    ⟨"demo", "SZ", "2020-01-01"⟩ (by decide)).mpr (by decide)

theorem retryGo_succ {α : Type} (op : Nat → Except PyErr α) (fn args : String)
    (b n t d : Nat) (s : List Nat) :
    retryGo op fn args b n (t + 2) d s =
      (match op n with
       | .ok a => ⟨some a, n + 1, s, []⟩
       | .error _ => retryGo op fn args b (n + 1) (t + 1) (d * b) (s ++ [d])) := rfl

theorem retryGo_one {α : Type} (op : Nat → Except PyErr α) (fn args : String)
    (b n d : Nat) (s : List Nat) :
    retryGo op fn args b n 1 d s =
      (match op n with
       | .ok a => ⟨some a, n + 1, s, []⟩
       | .error e => ⟨none, n + 1, s, [⟨fn, e.message, args⟩]⟩) := rfl

/-- C5: under the decoration's configuration (tries = 3, delay = 2,
backoff = 2), an operation whose first success is attempt k ≤ 3 is
invoked exactly k times, yields the successful result, sleeps 2 time-units
before the 2nd attempt and 2×2 = 4 before the 3rd, and logs nothing. -/
theorem C5_retry_backoff {α : Type} (op : Nat → Except PyErr α) (a : α)
    (fname args : String) (k : Nat) (h1 : 1 ≤ k) (h3 : k ≤ 3)
    (hfail : ∀ j, j + 1 < k → ∃ e, op j = .error e)
    (hok : op (k - 1) = .ok a) :
    retry op 3 2 2 fname args = ⟨some a, k, [2, 4].take (k - 1), []⟩ := by
  interval_cases k
  · have hok0 : op 0 = .ok a := hok
    unfold retry
    show retryGo op fname args 2 0 (1 + 2) 2 [] = _
    rw [retryGo_succ, hok0]
    rfl
  · obtain ⟨e0, he0⟩ := hfail 0 (by omega)
    have hok1 : op 1 = .ok a := hok
    unfold retry
    show retryGo op fname args 2 0 (1 + 2) 2 [] = _
    rw [retryGo_succ, he0]
    show retryGo op fname args 2 1 (0 + 2) 4 [2] = _
    rw [retryGo_succ, hok1]
    rfl
  · obtain ⟨e0, he0⟩ := hfail 0 (by omega)
    obtain ⟨e1, he1⟩ := hfail 1 (by omega)
    have hok2 : op 2 = .ok a := hok
    unfold retry
    show retryGo op fname args 2 0 (1 + 2) 2 [] = _
    rw [retryGo_succ, he0]
    show retryGo op fname args 2 1 (0 + 2) 4 [2] = _
    rw [retryGo_succ, he1]
    show retryGo op fname args 2 2 1 8 [2, 4] = _
    rw [retryGo_one, hok2]
    rfl

/-- An operation failing twice, then succeeding with the value 42. -/
def opTwiceFail : Nat → Except PyErr Nat :=
  fun j => if j < 2 then .error .providerError else .ok 42

/-- C5 witness: fails twice then succeeds on the third attempt — 3 calls,
sleeps 2 then 4, the successful value returned, nothing logged. -/
theorem C5_witness :
    retry opTwiceFail 3 2 2 "process_stock" "000001" = ⟨some 42, 3, [2, 4], []⟩ :=
  C5_retry_backoff opTwiceFail 42 "process_stock" "000001" 3 (by decide) (by decide)
    (fun j hj => ⟨.providerError, by
      have hj2 : j < 2 := by omega
      interval_cases j <;> rfl⟩) rfl

/-- C6: when every attempt of `process_stock` raises, the retry wrapper
returns None after exactly 3 invocations, appends exactly one log entry
holding the function name, the final error's message and the call
arguments (the ticker code); the wrapper itself never raises (its result
type is total), and the `as_completed` loop therefore skips just this
ticker: collecting over any universe equals collecting over the same
universe with the ticker removed. -/
theorem C6_exhausted_failure (attempts : Nat → Except PyErr (Option StockInfo))
    (code : String) (e0 e1 e2 : PyErr)
    (h0 : attempts 0 = .error e0) (h1 : attempts 1 = .error e1)
    (h2 : attempts 2 = .error e2) :
    process_stock_with_retry attempts code =
        ⟨none, 3, [2, 4], [⟨"process_stock", e2.message, code⟩]⟩
    ∧ (process_stock_with_retry attempts code).log.length = 1
    ∧ ∀ (codes : List String) (outcome : String → RetryResult (Option StockInfo)),
        outcome code = process_stock_with_retry attempts code →
        collect_results codes outcome =
          collect_results (codes.filter (fun c => !(c == code))) outcome := by
  have hmain : process_stock_with_retry attempts code =
      ⟨none, 3, [2, 4], [⟨"process_stock", e2.message, code⟩]⟩ := by
    unfold process_stock_with_retry retry
    show retryGo attempts "process_stock" code 2 0 (1 + 2) 2 [] = _
    rw [retryGo_succ, h0]
    show retryGo attempts "process_stock" code 2 1 (0 + 2) 4 [2] = _
    rw [retryGo_succ, h1]
    show retryGo attempts "process_stock" code 2 2 1 8 [2, 4] = _
    rw [retryGo_one, h2]
  refine ⟨hmain, by rw [hmain]; rfl, ?_⟩
  intro codes outcome ho
  apply collect_results_drop_none
  rw [ho, hmain]
  rfl

/-- An always-failing fetch task. -/
def attemptsFail : Nat → Except PyErr (Option StockInfo) :=
  fun _ => .error .providerError

/-- C6 witness: the always-failing ticker yields no result, 3 calls, one
log line, and dropping it from a concrete universe leaves the collected
results unchanged. -/
theorem C6_witness :
    process_stock_with_retry attemptsFail "000001" =
      ⟨none, 3, [2, 4], [⟨"process_stock", PyErr.providerError.message, "000001"⟩]⟩ :=
  (C6_exhausted_failure attemptsFail "000001" .providerError .providerError
    .providerError rfl rfl rfl).1

/-- C7 counterexample: with today's result file absent and the universe
snapshot present, the run still calls the provider's universe endpoint
(`all_code`) once — the snapshot's presence only suppresses rewriting the
snapshot file, it does not replace the fetch. -/
theorem C7_counterexample : (mainRun false true).universeFetchCalls = 1 := by decide

/-- C7 (amended): if today's result file exists, the run performs no
universe fetch, no provider price calls, no screening, and writes neither
file; when the result file is absent, the universe actually used is read
back from the snapshot file and an existing snapshot is not rewritten —
but the provider universe fetch happens unconditionally. -/
theorem C7_idempotence_amended :
    mainRun true true = ⟨0, false, false, false, false, false⟩
    ∧ mainRun true false = ⟨0, false, false, false, false, false⟩
    ∧ mainRun false true = ⟨1, false, true, true, true, true⟩
    ∧ mainRun false false = ⟨1, true, true, true, true, true⟩ := by decide

/-- Two serialization chunks standing for a streamed `json.dump`. -/
def chunksDemo : List String := ["ab", "cd"]

/-- C8: the result write is open-truncate plus a streamed dump, not
atomic.  A fault before the open leaves the previous file state intact
with the exception surfaced (the half of the claim the code does satisfy);
but a fault after the first of two chunks surfaces the exception while
leaving a file that is neither absent nor the complete serialization — a
partially written result file, which the claim rules out. -/
theorem C8_partial_write :
    (∀ (prev : FileState) (chunks : List String),
        writeResultFile prev chunks .beforeOpen = (prev, true))
    ∧ writeResultFile .absent chunksDemo (.afterChunks 1) = (.content "ab", true)
    ∧ (FileState.content "ab") ≠ FileState.absent
    ∧ (FileState.content "ab") ≠ .content (String.join chunksDemo) := by
  refine ⟨fun prev chunks => rfl, by decide, by decide, by decide⟩

end OpenHtml
